import Mathlib

/-!
# Verification of the in-memory product-catalog / gallery core

Shallow embedding of the backend's core logic:

* `src/backend/src/services/product/productService.ts` (catalog shaping, create,
  update, interaction recording, sorting helper),
* the product store (`ProductStore`, file `instances/product/productStore.ts`),
* `src/backend/src/services/gallery/galleryService.ts` and
  `src/backend/src/instances/gallery/galleryStore.ts`.

Modelling conventions:

* JavaScript `Map<string, T>` is an association list in insertion order with
  unique keys; `set` replaces the entry at an existing key in place (JS keeps
  the insertion position) and appends otherwise.
* JavaScript numbers that the code treats as integers are `Int` (counters,
  prices, timestamps in epoch milliseconds, priorities) or `Nat` where the
  value is structurally a count or an index fed by validated input.
* Validation (zod schemas) is an external collaborator per the spec (§1, §6):
  services take already-validated, typed parameter records.
* Thrown exceptions become explicit error values; every stateful service
  operation returns its result together with the resulting store, and a failed
  operation returns the store unchanged (in the source the singleton store is
  simply not mutated past the throw).
* Random UUID generation is modelled by an identifier parameter together with
  a freshness hypothesis where freshness matters (spec §5: the identifier
  space is treated as collision-free).
-/

/-! ## JavaScript `Map<string, T>` model -/

/-- `Map.prototype.get`: value stored at key `k`, if any. -/
def mapGet (m : List (String × α)) (k : String) : Option α :=
  match m with
  | [] => none
  | e :: rest => if e.1 == k then some e.2 else mapGet rest k

/-- `Map.prototype.set`: replace the entry at an existing key in place
(JS Maps keep the original insertion position), else append. -/
def mapSet (m : List (String × α)) (k : String) (v : α) : List (String × α) :=
  match m with
  | [] => [(k, v)]
  | e :: rest => if e.1 == k then (k, v) :: rest else e :: mapSet rest k v

/-- `Map.prototype.delete` (result discarded by the callers we model). -/
def mapDelete (m : List (String × α)) (k : String) : List (String × α) :=
  m.filter (fun e => !(e.1 == k))

/-- `Array.from(map.values())`: values in insertion order. -/
def mapValues (m : List (String × α)) : List α :=
  m.map Prod.snd

/-! ## JavaScript array helpers -/

/-- `Array.prototype.slice(start, stop)` for the in-range indices the callers
produce (`0 ≤ start`, `start ≤ stop`). -/
def jsSlice (l : List α) (start stop : Nat) : List α :=
  (l.drop start).take (stop - start)

/-- One step of `Array.prototype.sort` with a numeric comparator: `x` is
placed before the first element `y` with `c x y ≤ 0`. -/
def insertCmp (c : α → α → Int) (x : α) : List α → List α
  | [] => [x]
  | y :: ys => if c x y ≤ 0 then x :: y :: ys else y :: insertCmp c x ys

/-- Model of `Array.prototype.sort(comparator)` as a stable insertion sort.
ES2019+ requires sort stability; for the inconsistent null/null price
comparison the relative order is implementation-defined in JS, and every
property proved below is independent of it. -/
def sortCmp (c : α → α → Int) : List α → List α
  | [] => []
  | x :: xs => insertCmp c x (sortCmp c xs)

/-- Model of `String.prototype.includes`. -/
def strIncludes (s sub : String) : Bool :=
  (List.range (s.length + 1)).any (fun i => sub.data.isPrefixOf (s.data.drop i))

/-! ## Error model

`ServiceError(code, message, status)` instances thrown by the services keep
their `code` and HTTP `status`; a plain `Error(message)` that a service lets
propagate keeps its message. -/

inductive ServiceFailure where
  | serviceError (code : String) (status : Nat)
  | rawError (message : String)
deriving DecidableEq

deriving instance DecidableEq for Except

/-! ## Constants (`constants/product/productDefaults.ts`,
`constants/gallery/galleryDefaults.ts`) -/

def PRODUCT_DEFAULTS_MAX_PRODUCTS : Nat := 10000
def PRODUCT_LIMITS_BATCH_SIZE : Nat := 24
def PRODUCT_LIMITS_NEW_PRODUCT_DAYS : Int := 30
def PRODUCT_LIMITS_VIEW_WEIGHT : Int := 1
def PRODUCT_LIMITS_CLICK_WEIGHT : Int := 3
def PRODUCT_LIMITS_INTERACTION_WEIGHT : Int := 2
def GALLERY_DEFAULTS_MAX_IMAGES : Nat := 50

/-! ## Product data model (`instances/product/productStore.ts`) -/

inductive AvailabilityStatus where
  | available
  | on_request
  | out_of_stock
deriving DecidableEq

structure ProductRecord where
  id : String
  name : String
  code : String
  mainImageUrl : String
  price : Option Int
  availabilityStatus : AvailabilityStatus
  isFeatured : Bool
  isNew : Bool
  createdDate : Int
  isPromotional : Bool
  promotionalPrice : Option Int
  popularityScore : Int
  viewCount : Int
  clickCount : Int
  interactionCount : Int
  lastPopularityUpdate : Int
  active : Bool
deriving DecidableEq

structure ProductStore where
  records : List (String × ProductRecord)
deriving DecidableEq

/-- `ProductStore.getAll`: all active records. -/
def ProductStore.getAll (s : ProductStore) : List ProductRecord :=
  (mapValues s.records).filter (fun record => record.active)

/-- `ProductStore.getById`: the record, if present and active. -/
def ProductStore.getById (s : ProductStore) (id : String) : Option ProductRecord :=
  match mapGet s.records id with
  | some record => if record.active then some record else none
  | none => none

/-- `ProductStore.add`: insert unless the configured maximum record count is
reached (`this.records.size >= PRODUCT_DEFAULTS.MAX_PRODUCTS`). -/
def ProductStore.add (s : ProductStore) (record : ProductRecord) :
    Except String ProductStore :=
  if PRODUCT_DEFAULTS_MAX_PRODUCTS ≤ s.records.length then
    .error "Maximum products limit reached"
  else
    .ok { records := mapSet s.records record.id record }

/-- `ProductStore.update`: merge fields into the existing record.  The spread
`{...existing, ...data}` is modelled by the merge function each call site
passes, mirroring the fields of that call site's object literal. -/
def ProductStore.update (s : ProductStore) (id : String)
    (merge : ProductRecord → ProductRecord) : Option ProductRecord × ProductStore :=
  match mapGet s.records id with
  | none => (none, s)
  | some existing =>
    let updated := merge existing
    (some updated, { records := mapSet s.records id updated })

/-- `ProductStore.exists`. -/
def ProductStore.existsId (s : ProductStore) (id : String) : Bool :=
  match mapGet s.records id with
  | some record => record.active
  | none => false

/-- `ProductStore.codeExists(code, excludeId?)`: some record has this code, is
active, and (when `excludeId` is passed) is not the excluded record.  With no
`excludeId`, `record.id !== undefined` is always true in the source. -/
def ProductStore.codeExists (s : ProductStore) (code : String)
    (excludeId : Option String) : Bool :=
  (mapValues s.records).any (fun record =>
    record.code == code && record.active &&
      (match excludeId with
       | none => true
       | some e => record.id != e))

/-- `ProductStore.isProductNew`: created within the last 30 days.
`Math.floor((now - created) / 86_400_000)` is floor division. -/
def ProductStore.isProductNew (createdDate now : Int) : Bool :=
  Int.fdiv (now - createdDate) 86400000 ≤ PRODUCT_LIMITS_NEW_PRODUCT_DAYS

/-- `ProductStore.calculatePopularityScore`. -/
def ProductStore.calculatePopularityScore (viewCount clickCount interactionCount : Int) : Int :=
  viewCount * PRODUCT_LIMITS_VIEW_WEIGHT + clickCount * PRODUCT_LIMITS_CLICK_WEIGHT +
    interactionCount * PRODUCT_LIMITS_INTERACTION_WEIGHT

/-! ## Product service (`services/product/productService.ts`) -/

inductive SortCriteria where
  | name_asc
  | name_desc
  | price_asc
  | price_desc
  | date_newest
  | date_oldest
  | popularity
deriving DecidableEq

inductive NavigationMode where
  | pagination
  | infinite_scroll
deriving DecidableEq

/-- Validated catalog query (`catalogRequestSchema` output with defaults
applied: page ≥ 1, itemsPerPage ∈ {12, 24, 48}, loadedItemsCount ≥ 0). -/
structure CatalogParams where
  sortCriteria : SortCriteria
  navigationMode : NavigationMode
  currentPage : Nat
  itemsPerPage : Nat
  loadedItemsCount : Nat
deriving DecidableEq

structure PaginationInfo where
  currentPage : Nat
  itemsPerPage : Nat
  totalPages : Nat
  hasPrevious : Bool
  hasNext : Bool
deriving DecidableEq

structure InfiniteScrollInfo where
  loadedItemsCount : Nat
  batchSize : Nat
  hasMoreItems : Bool
  isLoading : Bool
deriving DecidableEq

structure ProductListResponse where
  id : String
  name : String
  code : String
  mainImageUrl : String
  price : Option Int
  availabilityStatus : AvailabilityStatus
  isFeatured : Bool
  isNew : Bool
  isPromotional : Bool
  promotionalPrice : Option Int
deriving DecidableEq

structure CatalogResponse where
  catalogTitle : String
  totalProductsCount : Nat
  products : List ProductListResponse
  pagination : Option PaginationInfo := none
  infiniteScroll : Option InfiniteScrollInfo := none
deriving DecidableEq

/-- `localeCompare`, modelled as a three-way lexicographic string comparison.
No claim exercises name ordering, only that a comparator exists. -/
def strCompare (a b : String) : Int :=
  match compare a b with
  | .lt => -1
  | .eq => 0
  | .gt => 1

/-- The comparator each branch of `sortProducts` passes to `Array.sort`.
For the price criteria the source returns 1 as soon as `a.price === null`
and -1 when only `b.price === null`. -/
def productCmp : SortCriteria → ProductRecord → ProductRecord → Int
  | .name_asc, a, b => strCompare a.name b.name
  | .name_desc, a, b => strCompare b.name a.name
  | .price_asc, a, b =>
    match a.price, b.price with
    | none, _ => 1
    | some _, none => -1
    | some x, some y => x - y
  | .price_desc, a, b =>
    match a.price, b.price with
    | none, _ => 1
    | some _, none => -1
    | some x, some y => y - x
  | .date_newest, a, b => b.createdDate - a.createdDate
  | .date_oldest, a, b => a.createdDate - b.createdDate
  | .popularity, a, b => b.popularityScore - a.popularityScore

/-- `sortProducts` helper. -/
def sortProducts (products : List ProductRecord) (sortCriteria : SortCriteria) :
    List ProductRecord :=
  sortCmp (productCmp sortCriteria) products

/-- `mapToListResponse` helper. -/
def mapToListResponse (product : ProductRecord) : ProductListResponse :=
  { id := product.id
    name := product.name
    code := product.code
    mainImageUrl := product.mainImageUrl
    price := product.price
    availabilityStatus := product.availabilityStatus
    isFeatured := product.isFeatured
    isNew := product.isNew
    isPromotional := product.isPromotional
    promotionalPrice := product.promotionalPrice }

/-- The list `productCatalog` sorts and slices: all active products with
`isNew` recomputed against the current time. -/
def catalogSorted (s : ProductStore) (params : CatalogParams) (now : Int) :
    List ProductRecord :=
  sortProducts
    ((s.getAll).map (fun product =>
      { product with isNew := ProductStore.isProductNew product.createdDate now }))
    params.sortCriteria

/-- `productCatalog` after validation.  `Math.ceil(totalCount / itemsPerPage)`
is `(totalCount + itemsPerPage - 1) / itemsPerPage` for the validated
`itemsPerPage ∈ {12, 24, 48}`; `totalPages || 1` is the `== 0` test. -/
def productCatalog (s : ProductStore) (params : CatalogParams) (now : Int) :
    CatalogResponse :=
  let sorted := catalogSorted s params now
  let totalCount := sorted.length
  match params.navigationMode with
  | .pagination =>
    let totalPages := (totalCount + params.itemsPerPage - 1) / params.itemsPerPage
    let currentPage := min params.currentPage (if totalPages == 0 then 1 else totalPages)
    let startIndex := (currentPage - 1) * params.itemsPerPage
    let endIndex := startIndex + params.itemsPerPage
    { catalogTitle := "Catálogo Lozorio Móveis"
      totalProductsCount := totalCount
      products := (jsSlice sorted startIndex endIndex).map mapToListResponse
      pagination := some
        { currentPage := currentPage
          itemsPerPage := params.itemsPerPage
          totalPages := if totalPages == 0 then 1 else totalPages
          hasPrevious := decide (1 < currentPage)
          hasNext := decide (currentPage < totalPages) } }
  | .infinite_scroll =>
    let startIndex := params.loadedItemsCount
    let endIndex := startIndex + PRODUCT_LIMITS_BATCH_SIZE
    { catalogTitle := "Catálogo Lozorio Móveis"
      totalProductsCount := totalCount
      products := (jsSlice sorted startIndex endIndex).map mapToListResponse
      infiniteScroll := some
        { loadedItemsCount := min endIndex totalCount
          batchSize := PRODUCT_LIMITS_BATCH_SIZE
          hasMoreItems := decide (endIndex < totalCount)
          isLoading := false } }

/-- Validated body of `productCreate` (`createSchema` output).  Optional
fields are `Option`; the source collapses `?? null` / `?? default` at the
use sites below. -/
structure ProductCreateInput where
  name : String
  code : String
  mainImageUrl : String
  price : Option Int
  availabilityStatus : Option AvailabilityStatus := none
  isFeatured : Option Bool := none
  isPromotional : Option Bool := none
  promotionalPrice : Option Int := none
deriving DecidableEq

/-- The record `productCreate` builds (id from `getNextId`, `now` from the
clock). -/
def mkNewProduct (params : ProductCreateInput) (id : String) (now : Int) : ProductRecord :=
  { id := id
    name := params.name
    code := params.code
    mainImageUrl := params.mainImageUrl
    price := params.price
    availabilityStatus := params.availabilityStatus.getD .available
    isFeatured := params.isFeatured.getD false
    isNew := true
    createdDate := now
    isPromotional := params.isPromotional.getD false
    promotionalPrice := params.promotionalPrice
    popularityScore := 0
    viewCount := 0
    clickCount := 0
    interactionCount := 0
    lastPopularityUpdate := now
    active := true }

/-- `productCreate` after validation.  The duplicate-code check runs before
the store's capacity check; a capacity failure propagates as the store's
plain `Error`. -/
def productCreate (s : ProductStore) (params : ProductCreateInput) (id : String)
    (now : Int) : Except ServiceFailure ProductRecord × ProductStore :=
  if s.codeExists params.code none then
    (.error (.serviceError "DUPLICATE_CODE" 409), s)
  else
    let newProduct := mkNewProduct params id now
    match s.add newProduct with
    | .error msg => (.error (.rawError msg), s)
    | .ok s2 => (.ok newProduct, s2)

/-- Validated body of `productUpdate`.

Modelled from the spec: `productValidation.ts` (the `updateSchema`) is not
among the sources; per spec §3 a product is "updated by full-record replace",
so every updatable field is required (nullable ones as `Option`). -/
structure ProductUpdateInput where
  name : String
  code : String
  mainImageUrl : String
  price : Option Int
  availabilityStatus : AvailabilityStatus
  isFeatured : Bool
  active : Bool
  isPromotional : Bool
  promotionalPrice : Option Int
deriving DecidableEq

/-- `productUpdate` after validation.  The duplicate-code check is skipped
entirely when the body's code equals the stored code. -/
def productUpdate (s : ProductStore) (id : String) (body : ProductUpdateInput)
    (now : Int) : Except ServiceFailure ProductRecord × ProductStore :=
  match s.getById id with
  | none => (.error (.serviceError "NOT_FOUND" 404), s)
  | some existing =>
    if body.code != existing.code && s.codeExists body.code (some id) then
      (.error (.serviceError "DUPLICATE_CODE" 409), s)
    else
      let merge : ProductRecord → ProductRecord := fun r =>
        { r with
          name := body.name
          code := body.code
          mainImageUrl := body.mainImageUrl
          price := body.price
          availabilityStatus := body.availabilityStatus
          isFeatured := body.isFeatured
          active := body.active
          isPromotional := body.isPromotional
          promotionalPrice := body.promotionalPrice }
      match s.update id merge with
      | (some updated, s2) =>
        (.ok { updated with isNew := ProductStore.isProductNew updated.createdDate now }, s2)
      | (none, s2) => (.error (.serviceError "NOT_FOUND" 404), s2)

inductive InteractionKind where
  | view
  | click
  | interaction
deriving DecidableEq

/-- `productInteraction` after validation: increment the matching counter and
recompute the popularity score from `updates.x ?? product.x`. -/
def productInteraction (s : ProductStore) (productId : String) (t : InteractionKind) :
    Except ServiceFailure String × ProductStore :=
  match s.getById productId with
  | none => (.error (.serviceError "NOT_FOUND" 404), s)
  | some product =>
    let newView := match t with
      | .view => product.viewCount + 1
      | _ => product.viewCount
    let newClick := match t with
      | .click => product.clickCount + 1
      | _ => product.clickCount
    let newInteraction := match t with
      | .interaction => product.interactionCount + 1
      | _ => product.interactionCount
    let score := ProductStore.calculatePopularityScore newView newClick newInteraction
    let merge : ProductRecord → ProductRecord := fun r =>
      match t with
      | .view => { r with viewCount := product.viewCount + 1, popularityScore := score }
      | .click => { r with clickCount := product.clickCount + 1, popularityScore := score }
      | .interaction =>
        { r with interactionCount := product.interactionCount + 1, popularityScore := score }
    let result := s.update productId merge
    (.ok "Interaction recorded successfully", result.2)

/-! ## Gallery data model (`instances/gallery/galleryStore.ts`) -/

inductive GalleryDisplayMode where
  | page
  | modal
deriving DecidableEq

inductive ImageCategory where
  | frontal
  | lateral
  | detalhes
  | ambiente
  | perspectiva
deriving DecidableEq

structure ResolutionUrls where
  thumbnail : String
  medium : String
  large : String
  original : String
deriving DecidableEq

structure GalleryRecord where
  id : String
  productId : String
  mainImageUrl : String
  totalImages : Nat
  currentImageIndex : Int
  currentVariationId : Option String
  displayMode : GalleryDisplayMode
deriving DecidableEq

structure GalleryImageRecord where
  id : String
  galleryId : String
  thumbnailUrl : String
  fullSizeUrl : String
  displayOrder : Int
  isActive : Bool
  imageCategory : ImageCategory
  lazyLoadPriority : Int
  captionText : Option String
  detailedDescription : Option String
  showCaption : Bool
  resolutionUrls : ResolutionUrls
deriving DecidableEq

inductive VariationType where
  | cor
  | acabamento
  | material
  | textura
deriving DecidableEq

structure ProductVariationRecord where
  id : String
  productId : String
  variationName : String
  variationType : VariationType
  colorCode : Option String
  isDefault : Bool
deriving DecidableEq

structure GalleryStore where
  galleries : List (String × GalleryRecord)
  images : List (String × GalleryImageRecord)
  variations : List (String × ProductVariationRecord)
deriving DecidableEq

/-- `GalleryStore.getByProductId`: first gallery (in insertion order) owned by
the product. -/
def GalleryStore.getByProductId (s : GalleryStore) (productId : String) :
    Option GalleryRecord :=
  (mapValues s.galleries).find? (fun g => g.productId == productId)

/-- `GalleryStore.getById`. -/
def GalleryStore.getById (s : GalleryStore) (id : String) : Option GalleryRecord :=
  mapGet s.galleries id

/-- `GalleryStore.addGallery`. -/
def GalleryStore.addGallery (s : GalleryStore) (gallery : GalleryRecord) : GalleryStore :=
  { s with galleries := mapSet s.galleries gallery.id gallery }

/-- `GalleryStore.updateGallery`: merge fields into the existing gallery.  The
spread `{...existing, ...data}` is modelled by the merge function the call
site passes. -/
def GalleryStore.updateGallery (s : GalleryStore) (id : String)
    (merge : GalleryRecord → GalleryRecord) : Option GalleryRecord × GalleryStore :=
  match mapGet s.galleries id with
  | none => (none, s)
  | some existing =>
    let updated := merge existing
    (some updated, { s with galleries := mapSet s.galleries id updated })

/-- Comparator of `getImagesByGalleryId`: lazy-load priority ascending, then
display order ascending. -/
def imageOrderCmp (a b : GalleryImageRecord) : Int :=
  if a.lazyLoadPriority != b.lazyLoadPriority then a.lazyLoadPriority - b.lazyLoadPriority
  else a.displayOrder - b.displayOrder

/-- `GalleryStore.getImagesByGalleryId`.  The `variationId` parameter is
accepted but — by current design — never filters (spec §9). -/
def GalleryStore.getImagesByGalleryId (s : GalleryStore) (galleryId : String)
    (_variationId : Option String) : List GalleryImageRecord :=
  sortCmp imageOrderCmp
    ((mapValues s.images).filter (fun img => img.galleryId == galleryId))

/-- `GalleryStore.getImageById`. -/
def GalleryStore.getImageById (s : GalleryStore) (id : String) :
    Option GalleryImageRecord :=
  mapGet s.images id

/-- `GalleryStore.addImage`: requires the gallery to exist, enforces
`MAX_IMAGES`, stores the image and sets the gallery's `totalImages` to the
pre-insertion live count plus one. -/
def GalleryStore.addImage (s : GalleryStore) (image : GalleryImageRecord) :
    Except String GalleryStore :=
  match mapGet s.galleries image.galleryId with
  | none => .error "Gallery not found"
  | some gallery =>
    let currentImages := s.getImagesByGalleryId image.galleryId none
    if GALLERY_DEFAULTS_MAX_IMAGES ≤ currentImages.length then
      .error "Maximum images limit reached for this gallery"
    else
      let withImage := { s with images := mapSet s.images image.id image }
      .ok { withImage with
            galleries := mapSet withImage.galleries gallery.id
              { gallery with totalImages := currentImages.length + 1 } }

/-- `GalleryStore.updateImage`: merge fields into the existing image. -/
def GalleryStore.updateImage (s : GalleryStore) (id : String)
    (merge : GalleryImageRecord → GalleryImageRecord) :
    Option GalleryImageRecord × GalleryStore :=
  match mapGet s.images id with
  | none => (none, s)
  | some existing =>
    let updated := merge existing
    (some updated, { s with images := mapSet s.images id updated })

/-- `GalleryStore.deleteImage`: remove the image, then recompute the owning
gallery's `totalImages` from the live count. -/
def GalleryStore.deleteImage (s : GalleryStore) (id : String) : Bool × GalleryStore :=
  match mapGet s.images id with
  | none => (false, s)
  | some image =>
    let s2 := { s with images := mapDelete s.images id }
    match mapGet s2.galleries image.galleryId with
    | none => (true, s2)
    | some gallery =>
      let currentImages := s2.getImagesByGalleryId image.galleryId none
      (true, { s2 with
               galleries := mapSet s2.galleries gallery.id
                 { gallery with totalImages := currentImages.length } })

/-- `GalleryStore.getVariationsByProductId`. -/
def GalleryStore.getVariationsByProductId (s : GalleryStore) (productId : String) :
    List ProductVariationRecord :=
  (mapValues s.variations).filter (fun v => v.productId == productId)

/-- `GalleryStore.addVariation`. -/
def GalleryStore.addVariation (s : GalleryStore) (variation : ProductVariationRecord) :
    GalleryStore :=
  { s with variations := mapSet s.variations variation.id variation }

/-- `GalleryStore.calculateLazyLoadPriority`: the fixed category → rank map.
The source's `|| 5` default is unreachable for the closed validated enum. -/
def GalleryStore.calculateLazyLoadPriority : ImageCategory → Int
  | .frontal => 1
  | .lateral => 2
  | .detalhes => 3
  | .ambiente => 4
  | .perspectiva => 5

/-! ## Gallery service (`services/gallery/galleryService.ts`) -/

structure GalleryGetResponse where
  gallery : GalleryRecord
  images : List GalleryImageRecord
  variations : List ProductVariationRecord
deriving DecidableEq

/-- `galleryGet` after validation: resolve the product's gallery, creating a
default one (zero images, page mode, `mainImageUrl = ''`) under the freshly
generated id when absent; return it with its images and the product's
variations. -/
def galleryGet (s : GalleryStore) (productId : String) (variationId : Option String)
    (freshId : String) : GalleryGetResponse × GalleryStore :=
  let resolved : GalleryRecord × GalleryStore :=
    match s.getByProductId productId with
    | some g => (g, s)
    | none =>
      let g : GalleryRecord :=
        { id := freshId
          productId := productId
          mainImageUrl := ""
          totalImages := 0
          currentImageIndex := 1
          currentVariationId := variationId
          displayMode := .page }
      (g, s.addGallery g)
  let gallery := resolved.1
  let s2 := resolved.2
  ({ gallery := gallery
     images := s2.getImagesByGalleryId gallery.id variationId
     variations := s2.getVariationsByProductId productId }, s2)

/-- Validated body of `galleryImageCreate` (`galleryImageCreateSchema`).  The
nullable-optional caption fields are collapsed to `Option` because the
service applies `?? null` before storing them. -/
structure GalleryImageCreateInput where
  galleryId : String
  thumbnailUrl : String
  fullSizeUrl : String
  displayOrder : Int
  imageCategory : ImageCategory
  captionText : Option String := none
  detailedDescription : Option String := none
  resolutionUrls : ResolutionUrls
deriving DecidableEq

/-- The image record `galleryImageCreate` builds: always `isActive := false`,
caption shown by default, priority derived from the category. -/
def mkNewImage (params : GalleryImageCreateInput) (id : String) : GalleryImageRecord :=
  { id := id
    galleryId := params.galleryId
    thumbnailUrl := params.thumbnailUrl
    fullSizeUrl := params.fullSizeUrl
    displayOrder := params.displayOrder
    isActive := false
    imageCategory := params.imageCategory
    lazyLoadPriority := GalleryStore.calculateLazyLoadPriority params.imageCategory
    captionText := params.captionText
    detailedDescription := params.detailedDescription
    showCaption := true
    resolutionUrls := params.resolutionUrls }

/-- The tail of `galleryImageCreate` past a successful `addImage`.

The service's local `gallery` variable is the very object stored in the
`galleries` map (`getById` returns the map's reference), and `addImage`
mutates that object's `totalImages` in place before the service's
`gallery.totalImages === 0` test runs.  The test therefore observes the
post-insertion count, which is modelled here by re-reading the gallery from
the post-`addImage` store.  The `none` branch is unreachable after a
successful `addImage`. -/
def galleryImageFinish (s2 : GalleryStore) (params : GalleryImageCreateInput)
    (newImage : GalleryImageRecord) :
    Except ServiceFailure GalleryImageRecord × GalleryStore :=
  match s2.getById params.galleryId with
  | some galleryAfter =>
    if galleryAfter.totalImages == 0 then
      let r := s2.updateGallery galleryAfter.id
        (fun g => { g with mainImageUrl := params.fullSizeUrl })
      (.ok newImage, r.2)
    else
      (.ok newImage, s2)
  | none => (.ok newImage, s2)

def galleryImageCreate (s : GalleryStore) (params : GalleryImageCreateInput)
    (id : String) : Except ServiceFailure GalleryImageRecord × GalleryStore :=
  match s.getById params.galleryId with
  | none => (.error (.serviceError "NOT_FOUND" 404), s)
  | some _ =>
    let newImage := mkNewImage params id
    match s.addImage newImage with
    | .error msg =>
      if strIncludes msg "Maximum images limit" then
        (.error (.serviceError "MAX_IMAGES_REACHED" 400), s)
      else
        (.error (.rawError msg), s)
    | .ok s2 => galleryImageFinish s2 params newImage

/-- `galleryImageFinish` always reports the new image as created. -/
theorem galleryImageFinish_fst (s2 : GalleryStore) (params : GalleryImageCreateInput)
    (img : GalleryImageRecord) : (galleryImageFinish s2 params img).1 = .ok img := by
  unfold galleryImageFinish
  cases s2.getById params.galleryId with
  | none => rfl
  | some g =>
    by_cases hz : (g.totalImages == 0) = true
    · simp [hz]
    · simp [hz]

/-- `galleryImageFinish` never touches the images map. -/
theorem galleryImageFinish_images (s2 : GalleryStore) (params : GalleryImageCreateInput)
    (img : GalleryImageRecord) : (galleryImageFinish s2 params img).2.images = s2.images := by
  unfold galleryImageFinish
  cases s2.getById params.galleryId with
  | none => rfl
  | some g =>
    by_cases hz : (g.totalImages == 0) = true
    · simp only [hz, if_true, reduceIte]
      unfold GalleryStore.updateGallery
      cases mapGet s2.galleries g.id <;> simp
    · simp [hz]

/-- Validated body of `galleryImageUpdate` (`galleryImageUpdateSchema`): all
fields optional, the caption fields additionally nullable. -/
structure GalleryImageUpdateInput where
  displayOrder : Option Int := none
  imageCategory : Option ImageCategory := none
  captionText : Option (Option String) := none
  detailedDescription : Option (Option String) := none
  showCaption : Option Bool := none
deriving DecidableEq

/-- The merged image record of `galleryImageUpdate`: present fields replace,
and `lazyLoadPriority` is recomputed exactly when the update carries a
category. -/
def applyImageUpdate (existing : GalleryImageRecord) (body : GalleryImageUpdateInput) :
    GalleryImageRecord :=
  { existing with
    displayOrder := body.displayOrder.getD existing.displayOrder
    imageCategory := body.imageCategory.getD existing.imageCategory
    captionText :=
      match body.captionText with
      | some v => v
      | none => existing.captionText
    detailedDescription :=
      match body.detailedDescription with
      | some v => v
      | none => existing.detailedDescription
    showCaption := body.showCaption.getD existing.showCaption
    lazyLoadPriority :=
      (body.imageCategory.map GalleryStore.calculateLazyLoadPriority).getD
        existing.lazyLoadPriority }

/-- `galleryImageUpdate` after validation. -/
def galleryImageUpdate (s : GalleryStore) (id : String)
    (body : GalleryImageUpdateInput) :
    Except ServiceFailure GalleryImageRecord × GalleryStore :=
  match s.getImageById id with
  | none => (.error (.serviceError "NOT_FOUND" 404), s)
  | some _ =>
    match s.updateImage id (fun existing => applyImageUpdate existing body) with
    | (some updated, s2) => (.ok updated, s2)
    | (none, s2) => (.error (.serviceError "NOT_FOUND" 404), s2)

/-- `galleryImageDelete` after validation. -/
def galleryImageDelete (s : GalleryStore) (id : String) :
    Except ServiceFailure String × GalleryStore :=
  match s.getImageById id with
  | none => (.error (.serviceError "NOT_FOUND" 404), s)
  | some _ =>
    let r := s.deleteImage id
    (.ok "Image deleted successfully", r.2)

/-! ## Lemmas about the map model -/

theorem mapGet_mapSet_self (m : List (String × α)) (k : String) (v : α) :
    mapGet (mapSet m k v) k = some v := by
  induction m with
  | nil => simp [mapSet, mapGet]
  | cons e rest ih =>
    by_cases h : e.1 = k
    · simp [mapSet, mapGet, h]
    · simp only [mapSet, mapGet, beq_iff_eq, if_neg h]
      simpa [mapGet, beq_iff_eq, h] using ih

theorem mapGet_mapSet_ne (m : List (String × α)) (k k2 : String) (v : α)
    (h : k2 ≠ k) : mapGet (mapSet m k v) k2 = mapGet m k2 := by
  have hk : (k == k2) = false := beq_eq_false_iff_ne.mpr (Ne.symm h)
  induction m with
  | nil => simp [mapSet, mapGet, hk]
  | cons e rest ih =>
    obtain ⟨b, w⟩ := e
    by_cases he : b = k
    · subst he
      simp [mapSet, mapGet, hk]
    · by_cases he2 : b = k2
      · subst he2
        simp [mapSet, mapGet, beq_iff_eq, he]
      · simp [mapSet, mapGet, beq_iff_eq, he, he2, ih]

theorem mapSet_fresh (m : List (String × α)) (k : String) (v : α)
    (h : mapGet m k = none) : mapSet m k v = m ++ [(k, v)] := by
  induction m with
  | nil => simp [mapSet]
  | cons e rest ih =>
    obtain ⟨b, w⟩ := e
    by_cases he : b = k
    · simp [mapGet, he] at h
    · have h2 : mapGet rest k = none := by simpa [mapGet, beq_iff_eq, he] using h
      simp [mapSet, beq_iff_eq, he, ih h2]

theorem mapValues_mapSet_fresh (m : List (String × α)) (k : String) (v : α)
    (h : mapGet m k = none) : mapValues (mapSet m k v) = mapValues m ++ [v] := by
  simp [mapSet_fresh m k v h, mapValues]

theorem mapGet_mem (m : List (String × α)) (k : String) (v : α)
    (h : mapGet m k = some v) : (k, v) ∈ m := by
  induction m with
  | nil => simp [mapGet] at h
  | cons e rest ih =>
    obtain ⟨b, w⟩ := e
    by_cases he : b = k
    · subst he
      simp only [mapGet, beq_self_eq_true, if_true, Option.some.injEq] at h
      subst h
      exact List.mem_cons_self _ _
    · simp only [mapGet, beq_iff_eq, if_neg he] at h
      exact List.mem_cons_of_mem _ (ih h)

theorem mapGet_eq_none_iff (m : List (String × α)) (k : String) :
    mapGet m k = none ↔ k ∉ m.map Prod.fst := by
  induction m with
  | nil => simp [mapGet]
  | cons e rest ih =>
    obtain ⟨b, w⟩ := e
    by_cases he : b = k
    · subst he
      simp [mapGet]
    · simp only [mapGet, beq_iff_eq, if_neg he, ih, List.map_cons, List.mem_cons]
      constructor
      · intro hnot h2
        rcases h2 with h2 | h2
        · exact he h2.symm
        · exact hnot h2
      · intro hnot h2
        exact hnot (Or.inr h2)

theorem mem_mapSet_self (m : List (String × α)) (k : String) (v : α) :
    (k, v) ∈ mapSet m k v := by
  induction m with
  | nil => simp [mapSet]
  | cons e rest ih =>
    obtain ⟨b, w⟩ := e
    by_cases he : b = k
    · simp [mapSet, beq_iff_eq, he]
    · simp only [mapSet, beq_iff_eq, if_neg he]
      exact List.mem_cons_of_mem _ ih

theorem keys_mapSet_subset (m : List (String × α)) (k : String) (v : α) (a : String)
    (h : a ∈ (mapSet m k v).map Prod.fst) : a ∈ m.map Prod.fst ∨ a = k := by
  induction m with
  | nil =>
    right
    simpa [mapSet] using h
  | cons e rest ih =>
    obtain ⟨b, w⟩ := e
    by_cases he : b = k
    · have hset : mapSet ((b, w) :: rest) k v = (k, v) :: rest := by
        simp [mapSet, beq_iff_eq, he]
      rw [hset] at h
      simp only [List.map_cons, List.mem_cons] at h ⊢
      rcases h with rfl | h
      · right; rfl
      · left; right; exact h
    · have hset : mapSet ((b, w) :: rest) k v = (b, w) :: mapSet rest k v := by
        simp [mapSet, beq_iff_eq, he]
      rw [hset] at h
      simp only [List.map_cons, List.mem_cons] at h ⊢
      rcases h with rfl | h
      · left; left; rfl
      · rcases ih h with h2 | h2
        · left; right; exact h2
        · right; exact h2

theorem keys_subset_mapSet (m : List (String × α)) (k : String) (v : α) (a : String)
    (h : a ∈ m.map Prod.fst) : a ∈ (mapSet m k v).map Prod.fst := by
  induction m with
  | nil => simp at h
  | cons e rest ih =>
    obtain ⟨b, w⟩ := e
    simp only [List.map_cons, List.mem_cons] at h
    by_cases he : b = k
    · have hset : mapSet ((b, w) :: rest) k v = (k, v) :: rest := by
        simp [mapSet, beq_iff_eq, he]
      rw [hset]
      simp only [List.map_cons, List.mem_cons]
      rcases h with rfl | h
      · left; exact he
      · right; exact h
    · have hset : mapSet ((b, w) :: rest) k v = (b, w) :: mapSet rest k v := by
        simp [mapSet, beq_iff_eq, he]
      rw [hset]
      simp only [List.map_cons, List.mem_cons]
      rcases h with rfl | h
      · left; rfl
      · right; exact ih h

theorem nodup_keys_mapSet (m : List (String × α)) (k : String) (v : α)
    (h : (m.map Prod.fst).Nodup) : ((mapSet m k v).map Prod.fst).Nodup := by
  induction m with
  | nil => simp [mapSet]
  | cons e rest ih =>
    obtain ⟨b, w⟩ := e
    simp only [List.map_cons, List.nodup_cons] at h
    obtain ⟨hnot, hrest⟩ := h
    by_cases he : b = k
    · have hset : mapSet ((b, w) :: rest) k v = (k, v) :: rest := by
        simp [mapSet, beq_iff_eq, he]
      rw [hset]
      simp only [List.map_cons, List.nodup_cons]
      rw [he] at hnot
      exact ⟨hnot, hrest⟩
    · have hset : mapSet ((b, w) :: rest) k v = (b, w) :: mapSet rest k v := by
        simp [mapSet, beq_iff_eq, he]
      rw [hset]
      simp only [List.map_cons, List.nodup_cons]
      refine ⟨?_, ih hrest⟩
      intro hmem
      rcases keys_mapSet_subset rest k v b hmem with h2 | h2
      · exact hnot h2
      · exact he h2

theorem mem_mapSet_of_nodup (m : List (String × α)) (k : String) (v : α)
    (hnodup : (m.map Prod.fst).Nodup) (e : String × α) (h : e ∈ mapSet m k v) :
    e = (k, v) ∨ (e ∈ m ∧ e.1 ≠ k) := by
  induction m with
  | nil =>
    left
    simpa [mapSet] using h
  | cons f rest ih =>
    obtain ⟨b, w⟩ := f
    simp only [List.map_cons, List.nodup_cons] at hnodup
    obtain ⟨hnot, hrest⟩ := hnodup
    by_cases hf : b = k
    · have hset : mapSet ((b, w) :: rest) k v = (k, v) :: rest := by
        simp [mapSet, beq_iff_eq, hf]
      rw [hset] at h
      rcases List.mem_cons.mp h with rfl | h2
      · left; rfl
      · right
        refine ⟨List.mem_cons_of_mem _ h2, ?_⟩
        intro hek
        apply hnot
        rw [hf, ← hek]
        exact List.mem_map_of_mem Prod.fst h2
    · have hset : mapSet ((b, w) :: rest) k v = (b, w) :: mapSet rest k v := by
        simp [mapSet, beq_iff_eq, hf]
      rw [hset] at h
      rcases List.mem_cons.mp h with rfl | h2
      · right
        exact ⟨List.mem_cons_self _ _, hf⟩
      · rcases ih hrest h2 with h3 | ⟨h3, h4⟩
        · left; exact h3
        · right; exact ⟨List.mem_cons_of_mem _ h3, h4⟩

theorem filterLen_mapSet_replace (m : List (String × α)) (k : String) (v old : α)
    (p : α → Bool) (hget : mapGet m k = some old) (hp : p v = p old) :
    ((mapValues (mapSet m k v)).filter p).length = ((mapValues m).filter p).length := by
  induction m with
  | nil => simp [mapGet] at hget
  | cons e rest ih =>
    obtain ⟨b, w⟩ := e
    by_cases he : b = k
    · have hw : w = old := by simpa [mapGet, beq_iff_eq, he] using hget
      have hset : mapSet ((b, w) :: rest) k v = (k, v) :: rest := by
        simp [mapSet, beq_iff_eq, he]
      rw [hset]
      simp only [mapValues, List.map_cons, List.filter_cons]
      rw [hp, hw]
      cases p old <;> simp
    · have hget2 : mapGet rest k = some old := by
        simpa [mapGet, beq_iff_eq, he] using hget
      have hset : mapSet ((b, w) :: rest) k v = (b, w) :: mapSet rest k v := by
        simp [mapSet, beq_iff_eq, he]
      rw [hset]
      simp only [mapValues, List.map_cons, List.filter_cons]
      cases hpw : p w <;> simp only [if_true, if_false, List.length_cons,
        Bool.false_eq_true, Bool.true_eq_false, reduceIte] <;>
        simp [mapValues] at ih ⊢ <;> rw [ih hget2]

theorem mapDelete_fresh (m : List (String × α)) (k : String)
    (h : mapGet m k = none) : mapDelete m k = m := by
  induction m with
  | nil => simp [mapDelete]
  | cons e rest ih =>
    obtain ⟨b, w⟩ := e
    by_cases he : b = k
    · simp [mapGet, he] at h
    · have h2 : mapGet rest k = none := by simpa [mapGet, beq_iff_eq, he] using h
      have hb : ((b, w).1 == k) = false := beq_eq_false_iff_ne.mpr he
      simp only [mapDelete, List.filter_cons, hb, Bool.not_false, if_true]
      simp only [mapDelete] at ih
      rw [ih h2]

theorem filterLen_mapDelete (m : List (String × α)) (k : String) (old : α)
    (p : α → Bool) (hnodup : (m.map Prod.fst).Nodup) (hget : mapGet m k = some old)
    (hp : p old = false) :
    ((mapValues (mapDelete m k)).filter p).length = ((mapValues m).filter p).length := by
  induction m with
  | nil => simp [mapGet] at hget
  | cons e rest ih =>
    obtain ⟨b, w⟩ := e
    simp only [List.map_cons, List.nodup_cons] at hnodup
    obtain ⟨hnot, hrest⟩ := hnodup
    by_cases he : b = k
    · have hw : w = old := by simpa [mapGet, beq_iff_eq, he] using hget
      have hfresh : mapGet rest k = none := by
        rw [mapGet_eq_none_iff, ← he]
        exact hnot
      have hdel : mapDelete ((b, w) :: rest) k = rest := by
        have hb : ((b, w).1 == k) = true := beq_iff_eq.mpr he
        simp only [mapDelete, List.filter_cons, hb, Bool.not_true, if_false,
          Bool.false_eq_true, reduceIte]
        simpa only [mapDelete] using mapDelete_fresh rest k hfresh
      rw [hdel]
      have hpw : p w = false := by rw [hw]; exact hp
      simp [mapValues, List.filter_cons, hpw]
    · have hget2 : mapGet rest k = some old := by
        simpa [mapGet, beq_iff_eq, he] using hget
      have hb : ((b, w).1 == k) = false := beq_eq_false_iff_ne.mpr he
      have hstep : mapDelete ((b, w) :: rest) k = (b, w) :: mapDelete rest k := by
        simp only [mapDelete, List.filter_cons, hb, Bool.not_false, if_true]
      rw [hstep]
      simp only [mapValues, List.map_cons, List.filter_cons]
      cases hpw : p w <;> simp only [if_true, if_false, List.length_cons,
        Bool.false_eq_true, Bool.true_eq_false, reduceIte] <;>
        simp [mapValues] at ih ⊢ <;> rw [ih hrest hget2]

theorem mem_mapDelete (m : List (String × α)) (k : String) (e : String × α)
    (h : e ∈ mapDelete m k) : e ∈ m ∧ e.1 ≠ k := by
  have h2 := List.of_mem_filter h
  refine ⟨List.mem_of_mem_filter h, ?_⟩
  intro hk
  simp [hk] at h2

theorem nodup_keys_mapDelete (m : List (String × α)) (k : String)
    (h : (m.map Prod.fst).Nodup) : ((mapDelete m k).map Prod.fst).Nodup := by
  have hsub : (mapDelete m k).Sublist m := List.filter_sublist m
  exact (hsub.map Prod.fst).nodup h

/-! ## Lemmas about the sort model -/

theorem insertCmp_perm (c : α → α → Int) (x : α) :
    ∀ l : List α, (insertCmp c x l).Perm (x :: l)
  | [] => by simp [insertCmp]
  | y :: ys => by
    rw [insertCmp]
    by_cases hc : c x y ≤ 0
    · simp [if_pos hc]
    · simp only [if_neg hc]
      exact ((insertCmp_perm c x ys).cons y).trans (List.Perm.swap x y ys)

theorem sortCmp_perm (c : α → α → Int) : ∀ l : List α, (sortCmp c l).Perm l
  | [] => by simp [sortCmp]
  | x :: xs => by
    rw [sortCmp]
    exact (insertCmp_perm c x (sortCmp c xs)).trans ((sortCmp_perm c xs).cons x)

theorem sortCmp_length (c : α → α → Int) (l : List α) :
    (sortCmp c l).length = l.length :=
  (sortCmp_perm c l).length_eq

theorem mem_insertCmp (c : α → α → Int) (x : α) (l : List α) (z : α) :
    z ∈ insertCmp c x l ↔ z = x ∨ z ∈ l := by
  rw [(insertCmp_perm c x l).mem_iff, List.mem_cons]

theorem pairwise_insertCmp (c : α → α → Int) (R : α → α → Prop)
    (htrans : ∀ a b d, R a b → R b d → R a d)
    (h1 : ∀ x y, c x y ≤ 0 → R x y) (h2 : ∀ x y, ¬ c x y ≤ 0 → R y x) (x : α) :
    ∀ l : List α, l.Pairwise R → (insertCmp c x l).Pairwise R
  | [], _ => by simp [insertCmp]
  | y :: ys, h => by
    rcases List.pairwise_cons.mp h with ⟨hy, hys⟩
    rw [insertCmp]
    by_cases hc : c x y ≤ 0
    · simp only [if_pos hc]
      refine List.pairwise_cons.mpr ⟨?_, h⟩
      intro z hz
      rcases List.mem_cons.mp hz with rfl | hz
      · exact h1 x z hc
      · exact htrans x y z (h1 x y hc) (hy z hz)
    · simp only [if_neg hc]
      refine List.pairwise_cons.mpr
        ⟨?_, pairwise_insertCmp c R htrans h1 h2 x ys hys⟩
      intro z hz
      rcases (mem_insertCmp c x ys z).mp hz with rfl | hz
      · exact h2 z y hc
      · exact hy z hz

theorem pairwise_sortCmp (c : α → α → Int) (R : α → α → Prop)
    (htrans : ∀ a b d, R a b → R b d → R a d)
    (h1 : ∀ x y, c x y ≤ 0 → R x y) (h2 : ∀ x y, ¬ c x y ≤ 0 → R y x) :
    ∀ l : List α, (sortCmp c l).Pairwise R
  | [] => by simp [sortCmp]
  | x :: xs => by
    rw [sortCmp]
    exact pairwise_insertCmp c R htrans h1 h2 x (sortCmp c xs)
      (pairwise_sortCmp c R htrans h1 h2 xs)

/-! ## Claim C2 — pagination mode -/

/-- C2: in pagination mode over the sorted active products (length `n`),
`productCatalog` emits `totalPages = ceil(n/k)` with minimum 1, clamps the
requested page down to `totalPages`, returns the slice
`[(page-1)*k, page*k)` of the sorted list, and emits
`hasPrevious = page > 1`, `hasNext = page < totalPages`; in particular for
`n = 50`, `k = 24`, requested page 3 this gives `totalPages = 3` and the
last 2 products. -/
theorem catalog_pagination_spec (s : ProductStore) (params : CatalogParams) (now : Int)
    (sorted : List ProductRecord) (n k tp page : Nat)
    (hmode : params.navigationMode = .pagination)
    (hkmem : params.itemsPerPage = 12 ∨ params.itemsPerPage = 24 ∨ params.itemsPerPage = 48)
    (hp : 1 ≤ params.currentPage)
    (hsorted : catalogSorted s params now = sorted)
    (hn : sorted.length = n)
    (hk : params.itemsPerPage = k)
    (htp : max ((n + k - 1) / k) 1 = tp)
    (hpage : min params.currentPage tp = page) :
    (productCatalog s params now).pagination =
      some ⟨page, k, tp, decide (1 < page), decide (page < tp)⟩ ∧
    (productCatalog s params now).products =
      (jsSlice sorted ((page - 1) * k) (page * k)).map mapToListResponse ∧
    (productCatalog s params now).totalProductsCount = n ∧
    (n = 50 → k = 24 → params.currentPage = 3 →
      tp = 3 ∧
      (productCatalog s params now).products = (sorted.drop 48).map mapToListResponse ∧
      (productCatalog s params now).products.length = 2) := by
  subst hsorted hn hk htp hpage
  have hk1 : 1 ≤ params.itemsPerPage := by rcases hkmem with h | h | h <;> omega
  simp only [productCatalog, hmode]
  set S := catalogSorted s params now with hS
  set N := S.length with hN
  set K := params.itemsPerPage with hK
  set C := (N + K - 1) / K with hC
  have hCif : (if C == 0 then 1 else C) = max C 1 := by
    rcases Nat.eq_zero_or_pos C with h0 | h1
    · simp [h0]
    · have hne : (C == 0) = false := by
        simp only [beq_eq_false_iff_ne, ne_eq]
        omega
      rw [hne]
      simp
      omega
  rw [hCif]
  have hpage1 : 1 ≤ min params.currentPage (max C 1) :=
    le_min hp (le_max_right C 1)
  have hnext : decide (min params.currentPage (max C 1) < C) =
      decide (min params.currentPage (max C 1) < max C 1) := by
    rw [decide_eq_decide]
    constructor <;> intro h <;> omega
  have hslice : (min params.currentPage (max C 1) - 1) * K + K =
      min params.currentPage (max C 1) * K := by
    obtain ⟨m, hm⟩ : ∃ m, min params.currentPage (max C 1) = m + 1 :=
      ⟨min params.currentPage (max C 1) - 1, by omega⟩
    rw [hm]
    simp [Nat.succ_mul]
  refine ⟨by rw [hnext], by rw [hslice], by trivial, ?_⟩
  intro h50 h24 h3
  have hC3 : C = 3 := by rw [hC, h50, h24]
  have hpg : min params.currentPage (max C 1) = 3 := by
    rw [hC3, h3]
    decide
  have hlen2 : (S.drop 48).length = 2 := by
    rw [List.length_drop, ← hN, h50]
  refine ⟨by rw [hC3]; decide, ?_, ?_⟩
  · rw [hpg, h24]
    have : jsSlice S ((3 - 1) * 24) ((3 - 1) * 24 + 24) = S.drop 48 := by
      show (S.drop 48).take 24 = S.drop 48
      exact List.take_of_length_le (by rw [hlen2]; omega)
    rw [this]
  · rw [hpg, h24]
    have : jsSlice S ((3 - 1) * 24) ((3 - 1) * 24 + 24) = S.drop 48 := by
      show (S.drop 48).take 24 = S.drop 48
      exact List.take_of_length_le (by rw [hlen2]; omega)
    rw [this, List.length_map, hlen2]

def emptyProductStore : ProductStore := { records := [] }

def wCatalogParamsPg : CatalogParams :=
  { sortCriteria := .price_asc
    navigationMode := .pagination
    currentPage := 1
    itemsPerPage := 24
    loadedItemsCount := 0 }

/-- C2 witness: the theorem applied to the empty store with page 1 and 24
items per page. -/
theorem catalog_pagination_spec_witness :
    (productCatalog emptyProductStore wCatalogParamsPg 0).pagination =
      some ⟨1, 24, 1, false, false⟩ :=
  (catalog_pagination_spec emptyProductStore wCatalogParamsPg 0
    (catalogSorted emptyProductStore wCatalogParamsPg 0) 0 24 1 1
    rfl (Or.inr (Or.inl rfl)) (by decide) rfl rfl rfl (by decide) (by decide)).1

/-! ## Claim C3 — infinite-scroll mode -/

/-- C3: in infinite-scroll mode with `loadedItemsCount = L` over the sorted
active products (length `n`), `productCatalog` returns the slice `[L, L+24)`
(batch size fixed at 24), emits `loadedItemsCount = min (L+24) n` and
`hasMoreItems ↔ L+24 < n`; in particular for `L = 0`, `n = 10` all 10
products are returned, the new count is 10, and `hasMoreItems` is false. -/
theorem catalog_infinite_scroll_spec (s : ProductStore) (params : CatalogParams)
    (now : Int) (sorted : List ProductRecord) (n L : Nat)
    (hmode : params.navigationMode = .infinite_scroll)
    (hsorted : catalogSorted s params now = sorted)
    (hn : sorted.length = n)
    (hL : params.loadedItemsCount = L) :
    (productCatalog s params now).infiniteScroll =
      some ⟨min (L + 24) n, 24, decide (L + 24 < n), false⟩ ∧
    (productCatalog s params now).products =
      (jsSlice sorted L (L + 24)).map mapToListResponse ∧
    (productCatalog s params now).totalProductsCount = n ∧
    (L = 0 → n = 10 →
      (productCatalog s params now).products = sorted.map mapToListResponse ∧
      min (L + 24) n = 10 ∧ decide (L + 24 < n) = false) := by
  subst hsorted hn hL
  simp only [productCatalog, hmode, PRODUCT_LIMITS_BATCH_SIZE]
  refine ⟨by trivial, by trivial, by trivial, ?_⟩
  intro h0 h10
  refine ⟨?_, ?_, ?_⟩
  · rw [h0]
    have hsl : jsSlice (catalogSorted s params now) 0 (0 + 24) =
        catalogSorted s params now := by
      show ((catalogSorted s params now).drop 0).take (0 + 24 - 0) =
        catalogSorted s params now
      rw [List.drop_zero]
      exact List.take_of_length_le (by omega)
    rw [hsl]
  · rw [h0, h10]
    decide
  · rw [h0, h10]
    decide

def sampleProduct : ProductRecord :=
  { id := "p1"
    name := "Sofa A"
    code := "LZ-0001"
    mainImageUrl := ""
    price := some 10
    availabilityStatus := .available
    isFeatured := false
    isNew := true
    createdDate := 0
    isPromotional := false
    promotionalPrice := none
    popularityScore := 0
    viewCount := 0
    clickCount := 0
    interactionCount := 0
    lastPopularityUpdate := 0
    active := true }

def wProductStore1 : ProductStore := { records := [("p1", sampleProduct)] }

def wCatalogParamsInf : CatalogParams :=
  { sortCriteria := .price_asc
    navigationMode := .infinite_scroll
    currentPage := 1
    itemsPerPage := 24
    loadedItemsCount := 0 }

/-- C3 witness: the theorem applied to a one-product store with
`loadedItemsCount = 0`. -/
theorem catalog_infinite_scroll_spec_witness :
    (productCatalog wProductStore1 wCatalogParamsInf 0).infiniteScroll =
      some ⟨1, 24, false, false⟩ :=
  (catalog_infinite_scroll_spec wProductStore1 wCatalogParamsInf 0
    (catalogSorted wProductStore1 wCatalogParamsInf 0) 1 0 rfl rfl rfl rfl).1

/-! ## Claim C8 — null prices sort last -/

/-- Claim-side order for price ascending: a null-priced product never precedes
a non-null-priced one, and non-null prices are non-decreasing. -/
def optPriceLeAsc : Option Int → Option Int → Prop
  | some x, some y => x ≤ y
  | some _, none => True
  | none, some _ => False
  | none, none => True

/-- Claim-side order for price descending: nulls still last, non-null prices
non-increasing. -/
def optPriceLeDesc : Option Int → Option Int → Prop
  | some x, some y => y ≤ x
  | some _, none => True
  | none, some _ => False
  | none, none => True

def nullsLastAsc (a b : ProductRecord) : Prop := optPriceLeAsc a.price b.price

def nullsLastDesc (a b : ProductRecord) : Prop := optPriceLeDesc a.price b.price

theorem optPriceLeAsc_trans (a b d : Option Int)
    (hab : optPriceLeAsc a b) (hbd : optPriceLeAsc b d) : optPriceLeAsc a d := by
  cases a <;> cases b <;> cases d <;> simp [optPriceLeAsc] at * <;> omega

theorem optPriceLeDesc_trans (a b d : Option Int)
    (hab : optPriceLeDesc a b) (hbd : optPriceLeDesc b d) : optPriceLeDesc a d := by
  cases a <;> cases b <;> cases d <;> simp [optPriceLeDesc] at * <;> omega

theorem priceAscCmp_le (x y : ProductRecord)
    (h : productCmp .price_asc x y ≤ 0) : nullsLastAsc x y := by
  unfold nullsLastAsc
  cases hx : x.price <;> cases hy : y.price <;>
    simp [productCmp, hx, hy, optPriceLeAsc] at * <;> omega

theorem priceAscCmp_gt (x y : ProductRecord)
    (h : ¬ productCmp .price_asc x y ≤ 0) : nullsLastAsc y x := by
  unfold nullsLastAsc
  cases hx : x.price <;> cases hy : y.price <;>
    simp [productCmp, hx, hy, optPriceLeAsc] at * <;> omega

theorem priceDescCmp_le (x y : ProductRecord)
    (h : productCmp .price_desc x y ≤ 0) : nullsLastDesc x y := by
  unfold nullsLastDesc
  cases hx : x.price <;> cases hy : y.price <;>
    simp [productCmp, hx, hy, optPriceLeDesc] at * <;> omega

theorem priceDescCmp_gt (x y : ProductRecord)
    (h : ¬ productCmp .price_desc x y ≤ 0) : nullsLastDesc y x := by
  unfold nullsLastDesc
  cases hx : x.price <;> cases hy : y.price <;>
    simp [productCmp, hx, hy, optPriceLeDesc] at * <;> omega

/-- A copy of the sample product with a given id and price. -/
def productPriced (id : String) (price : Option Int) : ProductRecord :=
  { sampleProduct with id := id, price := price }

/-- C8: sorting by price ascending places every null-priced product after
every non-null-priced one with the non-null prices ascending, sorting by
price descending does the same with non-null prices descending, both sorts
permute the input, and on prices [null, 10, 5] they produce [5, 10, null]
and [10, 5, null] respectively. -/
theorem sort_price_nulls_last :
    (∀ l : List ProductRecord,
      (sortProducts l .price_asc).Pairwise nullsLastAsc ∧
      (sortProducts l .price_asc).Perm l ∧
      (sortProducts l .price_desc).Pairwise nullsLastDesc ∧
      (sortProducts l .price_desc).Perm l) ∧
    sortProducts [productPriced "pn" none, productPriced "pa" (some 10),
        productPriced "pb" (some 5)] .price_asc =
      [productPriced "pb" (some 5), productPriced "pa" (some 10),
        productPriced "pn" none] ∧
    sortProducts [productPriced "pn" none, productPriced "pa" (some 10),
        productPriced "pb" (some 5)] .price_desc =
      [productPriced "pa" (some 10), productPriced "pb" (some 5),
        productPriced "pn" none] := by
  refine ⟨?_, by decide, by decide⟩
  intro l
  refine ⟨?_, sortCmp_perm _ l, ?_, sortCmp_perm _ l⟩
  · exact pairwise_sortCmp _ nullsLastAsc
      (fun a b d => optPriceLeAsc_trans a.price b.price d.price)
      priceAscCmp_le priceAscCmp_gt l
  · exact pairwise_sortCmp _ nullsLastDesc
      (fun a b d => optPriceLeDesc_trans a.price b.price d.price)
      priceDescCmp_le priceDescCmp_gt l

/-! ## Claim C7 — interaction recording -/

/-- Inversion for `ProductStore.getById`: a hit means the raw map holds the
record and it is active. -/
theorem getById_some (s : ProductStore) (id : String) (p : ProductRecord)
    (h : s.getById id = some p) : mapGet s.records id = some p ∧ p.active = true := by
  unfold ProductStore.getById at h
  cases hm : mapGet s.records id with
  | none =>
    rw [hm] at h
    exact absurd h (by simp)
  | some r =>
    rw [hm] at h
    by_cases ha : r.active = true
    · have h2 : some r = some p := by simpa [ha] using h
      have hrp : r = p := Option.some.inj h2
      rw [hrp] at ha
      exact ⟨h2, ha⟩
    · simp [ha] at h

/-- C7: after a successful `productInteraction`, exactly the counter matching
the interaction kind is incremented by one, the other two counters are
unchanged, and the stored popularity score is the weighted sum
`views*1 + clicks*3 + interactions*2` of the updated counters. -/
theorem interaction_updates_counters (s : ProductStore) (pid : String)
    (t : InteractionKind) (p : ProductRecord)
    (hget : s.getById pid = some p) :
    (productInteraction s pid t).1 = .ok "Interaction recorded successfully" ∧
    ∃ q : ProductRecord,
      mapGet (productInteraction s pid t).2.records pid = some q ∧
      q.viewCount = (if t = .view then p.viewCount + 1 else p.viewCount) ∧
      q.clickCount = (if t = .click then p.clickCount + 1 else p.clickCount) ∧
      q.interactionCount =
        (if t = .interaction then p.interactionCount + 1 else p.interactionCount) ∧
      q.popularityScore =
        q.viewCount * 1 + q.clickCount * 3 + q.interactionCount * 2 := by
  obtain ⟨hmap, hact⟩ := getById_some s pid p hget
  cases t <;>
    simp only [productInteraction, hget, ProductStore.update, hmap] <;>
    refine ⟨by trivial, _, mapGet_mapSet_self _ _ _, ?_, ?_, ?_, ?_⟩ <;>
    simp [ProductStore.calculatePopularityScore, PRODUCT_LIMITS_VIEW_WEIGHT,
      PRODUCT_LIMITS_CLICK_WEIGHT, PRODUCT_LIMITS_INTERACTION_WEIGHT]

/-- C7 witness: a view interaction on the one-product store. -/
theorem interaction_updates_counters_witness :
    (productInteraction wProductStore1 "p1" .view).1 =
      .ok "Interaction recorded successfully" :=
  (interaction_updates_counters wProductStore1 "p1" .view sampleProduct rfl).1

/-! ## Claim C9 — `codeExists` self-exclusion -/

/-- C9: for an active product `p` of a store whose active products have
pairwise-distinct codes (the spec's code-uniqueness invariant),
`codeExists p.code` is true, `codeExists p.code (excludeId := p.id)` is
false, and `productUpdate` on `p` with a body keeping `p.code` never yields
`DUPLICATE_CODE`. -/
theorem codeExists_self_exclusion (s : ProductStore) (p : ProductRecord)
    (body : ProductUpdateInput) (now : Int)
    (hmem : mapGet s.records p.id = some p)
    (hact : p.active = true)
    (huniq : ∀ e1 e2 : String × ProductRecord, e1 ∈ s.records → e2 ∈ s.records →
      e1.2.active = true → e2.2.active = true → e1.2.code = e2.2.code →
      e1.2.id = e2.2.id)
    (hcode : body.code = p.code) :
    s.codeExists p.code none = true ∧
    s.codeExists p.code (some p.id) = false ∧
    (productUpdate s p.id body now).1 ≠ .error (.serviceError "DUPLICATE_CODE" 409) := by
  have hpmem : (p.id, p) ∈ s.records := mapGet_mem s.records p.id p hmem
  refine ⟨?_, ?_, ?_⟩
  · rw [ProductStore.codeExists, List.any_eq_true]
    refine ⟨p, List.mem_map_of_mem Prod.snd hpmem, ?_⟩
    simp [hact]
  · rw [ProductStore.codeExists]
    by_contra hany
    rw [Bool.not_eq_false, List.any_eq_true] at hany
    obtain ⟨r, hr, hpred⟩ := hany
    rw [mapValues] at hr
    obtain ⟨e, he, hsnd⟩ := List.mem_map.mp hr
    simp only [Bool.and_eq_true, beq_iff_eq, bne_iff_ne, ne_eq] at hpred
    obtain ⟨⟨hcodeEq, hactive⟩, hne⟩ := hpred
    have hid : e.2.id = p.id := by
      refine huniq e (p.id, p) he hpmem ?_ hact ?_
      · rw [hsnd]; exact hactive
      · rw [hsnd]; exact hcodeEq
    rw [hsnd] at hid
    exact hne hid
  · have hgot : s.getById p.id = some p := by
      unfold ProductStore.getById
      rw [hmem]
      simp [hact]
    have hbne : (body.code != p.code) = false := by
      simp [hcode]
    simp only [productUpdate, hgot, hbne, Bool.false_and, Bool.false_eq_true,
      if_false, reduceIte]
    split
    · simp
    · simp

/-- C9 witness: the one-product store, updating the product with its own
code. -/
theorem codeExists_self_exclusion_witness :
    wProductStore1.codeExists "LZ-0001" (some "p1") = false :=
  (codeExists_self_exclusion wProductStore1 sampleProduct
    { name := "Sofa A"
      code := "LZ-0001"
      mainImageUrl := ""
      price := some 10
      availabilityStatus := .available
      isFeatured := false
      active := true
      isPromotional := false
      promotionalPrice := none } 0 rfl rfl
    (by
      intro e1 e2 h1 h2 _ _ _
      simp only [wProductStore1, List.mem_singleton] at h1 h2
      rw [h1, h2])
    rfl).2.1

/-! ## Claim C6 — product-store capacity (corrected) -/

def wDupCreateInput : ProductCreateInput :=
  { name := "Sofa B"
    code := "LZ-0001"
    mainImageUrl := ""
    price := none }

/-- C6 counterexample: the store holds one product (far below the 10,000
maximum) and the schema-valid create request reuses its code; `productCreate`
fails with `DUPLICATE_CODE` instead of inserting and succeeding. -/
theorem productCreate_below_max_can_fail :
    wProductStore1.records.length < PRODUCT_DEFAULTS_MAX_PRODUCTS ∧
    (productCreate wProductStore1 wDupCreateInput "p2" 0).1 =
      .error (.serviceError "DUPLICATE_CODE" 409) ∧
    (productCreate wProductStore1 wDupCreateInput "p2" 0).2 = wProductStore1 := by
  refine ⟨by decide, by decide, by decide⟩

/-- C6 (amended): for a valid create request whose code is not already used
by an active product, `productCreate` fails with the store's capacity error
and leaves the store unchanged when the store already holds 10,000 records,
and below that count inserts the new record under the fresh identifier and
succeeds. -/
theorem productCreate_capacity_spec (s : ProductStore) (params : ProductCreateInput)
    (id : String) (now : Int)
    (hcode : s.codeExists params.code none = false)
    (hfresh : mapGet s.records id = none) :
    (PRODUCT_DEFAULTS_MAX_PRODUCTS ≤ s.records.length →
      productCreate s params id now =
        (.error (.rawError "Maximum products limit reached"), s)) ∧
    (s.records.length < PRODUCT_DEFAULTS_MAX_PRODUCTS →
      productCreate s params id now =
        (.ok (mkNewProduct params id now),
          { records := s.records ++ [(id, mkNewProduct params id now)] }) ∧
      mapGet (productCreate s params id now).2.records id =
        some (mkNewProduct params id now)) := by
  constructor
  · intro hfull
    simp only [productCreate, hcode, Bool.false_eq_true, if_false, reduceIte,
      ProductStore.add, if_pos hfull]
  · intro hroom
    have hnot : ¬ PRODUCT_DEFAULTS_MAX_PRODUCTS ≤ s.records.length := by omega
    have hid : (mkNewProduct params id now).id = id := rfl
    constructor
    · simp only [productCreate, hcode, Bool.false_eq_true, if_false, reduceIte,
        ProductStore.add, if_neg hnot, hid,
        mapSet_fresh s.records id (mkNewProduct params id now) hfresh]
    · simp only [productCreate, hcode, Bool.false_eq_true, if_false, reduceIte,
        ProductStore.add, if_neg hnot, hid]
      exact mapGet_mapSet_self s.records id (mkNewProduct params id now)

def deadProduct : ProductRecord :=
  { sampleProduct with id := "k", code := "X", active := false }

def wBigStore : ProductStore :=
  { records := List.replicate 10000 ("k", deadProduct) }

def wFreshInput : ProductCreateInput :=
  { name := "Sofa C"
    code := "LZ-9999"
    mainImageUrl := ""
    price := none }

/-- C6 witness: the amended theorem applied both below the maximum (the
one-product store: the create succeeds) and at the maximum (a store with
10,000 records: the capacity error, store unchanged). -/
theorem productCreate_capacity_spec_witness :
    (productCreate wProductStore1 wFreshInput "p9" 0).1 =
      .ok (mkNewProduct wFreshInput "p9" 0) ∧
    productCreate wBigStore wFreshInput "p9" 0 =
      (.error (.rawError "Maximum products limit reached"), wBigStore) := by
  have hcodeBig : wBigStore.codeExists "LZ-9999" none = false := by
    rw [ProductStore.codeExists]
    rw [List.any_eq_false]
    intro r hr
    simp only [wBigStore, mapValues, List.map_replicate, List.mem_replicate] at hr
    rw [hr.2]
    decide
  have hfreshBig : mapGet wBigStore.records "p9" = none := by
    rw [mapGet_eq_none_iff]
    simp only [wBigStore, List.map_replicate, List.mem_replicate]
    decide
  have hlenBig : PRODUCT_DEFAULTS_MAX_PRODUCTS ≤ wBigStore.records.length := by
    have hlen : wBigStore.records.length = 10000 := by
      rw [show wBigStore.records = List.replicate 10000 ("k", deadProduct) from rfl,
        List.length_replicate]
    rw [hlen]
    rw [show PRODUCT_DEFAULTS_MAX_PRODUCTS = 10000 from rfl]
  constructor
  · have h := (productCreate_capacity_spec wProductStore1 wFreshInput "p9" 0
      (by decide) (by decide)).2 (by decide)
    rw [h.1]
  · exact (productCreate_capacity_spec wBigStore wFreshInput "p9" 0
      hcodeBig hfreshBig).1 hlenBig

/-! ## Claim C10 — images are created inactive -/

/-- C10: every image a successful `galleryImageCreate` returns and stores has
`isActive = false`, for any store, request and identifier. -/
theorem image_created_inactive (s : GalleryStore) (params : GalleryImageCreateInput)
    (id : String) (img : GalleryImageRecord)
    (hok : (galleryImageCreate s params id).1 = .ok img) :
    img.isActive = false ∧
    mapGet (galleryImageCreate s params id).2.images img.id = some img := by
  unfold galleryImageCreate at hok ⊢
  cases hg : s.getById params.galleryId with
  | none =>
    simp only [hg] at hok
    simp at hok
  | some g =>
    simp only [hg] at hok ⊢
    cases hadd : s.addImage (mkNewImage params id) with
    | error msg =>
      simp only [hadd] at hok
      by_cases hinc : strIncludes msg "Maximum images limit" = true
      · rw [if_pos hinc] at hok
        simp at hok
      · rw [if_neg hinc] at hok
        simp at hok
    | ok s2 =>
      simp only [hadd] at hok ⊢
      have himg : s2.images = mapSet s.images id (mkNewImage params id) := by
        unfold GalleryStore.addImage at hadd
        cases hgal : mapGet s.galleries (mkNewImage params id).galleryId with
        | none =>
          simp only [hgal] at hadd
          exact absurd hadd (by simp)
        | some gallery =>
          simp only [hgal] at hadd
          by_cases hcap : GALLERY_DEFAULTS_MAX_IMAGES ≤
              (s.getImagesByGalleryId (mkNewImage params id).galleryId none).length
          · rw [if_pos hcap] at hadd
            simp at hadd
          · rw [if_neg hcap] at hadd
            have h2 := Except.ok.inj hadd
            rw [← h2]
            rfl
      have hres : img = mkNewImage params id := by
        rw [galleryImageFinish_fst s2 params (mkNewImage params id)] at hok
        exact (Except.ok.inj hok).symm
      subst hres
      refine ⟨rfl, ?_⟩
      rw [galleryImageFinish_images s2 params (mkNewImage params id), himg]
      exact mapGet_mapSet_self _ _ _

def wGallery : GalleryRecord :=
  { id := "g1"
    productId := "prod1"
    mainImageUrl := ""
    totalImages := 0
    currentImageIndex := 1
    currentVariationId := none
    displayMode := .page }

def wGalleryStore : GalleryStore :=
  { galleries := [("g1", wGallery)]
    images := []
    variations := [] }

def wImageInput : GalleryImageCreateInput :=
  { galleryId := "g1"
    thumbnailUrl := "t"
    fullSizeUrl := "f"
    displayOrder := 1
    imageCategory := .frontal
    resolutionUrls := { thumbnail := "a", medium := "b", large := "c", original := "d" } }

/-- C10 witness: creating an image in a one-gallery store. -/
theorem image_created_inactive_witness :
    (mkNewImage wImageInput "img1").isActive = false :=
  (image_created_inactive wGalleryStore wImageInput "img1"
    (mkNewImage wImageInput "img1") (by decide)).1

/-! ## Claim C1 — first-image main-image promotion -/

/-- C1 (behaviour at the failing input): adding the first image to an empty
gallery succeeds, yet the gallery's `mainImageUrl` stays `""` instead of
becoming the image's full-size URL `"f"`.  The service checks
`gallery.totalImages === 0` only after `addImage` has already bumped the
aliased record's count to 1, so the promotion branch can never run. -/
theorem first_image_leaves_main_image_unset :
    (galleryImageCreate wGalleryStore wImageInput "img1").1 =
      .ok (mkNewImage wImageInput "img1") ∧
    ((galleryImageCreate wGalleryStore wImageInput "img1").2.getById "g1").map
      GalleryRecord.mainImageUrl = some "" ∧
    wImageInput.fullSizeUrl = "f" ∧ ("" : String) ≠ "f" := by
  refine ⟨by decide, by decide, by decide, by decide⟩

/-! ## Claim C5 — gallery image capacity -/

theorem mkNewImage_galleryId (params : GalleryImageCreateInput) (id : String) :
    (mkNewImage params id).galleryId = params.galleryId := rfl

theorem mkNewImage_id (params : GalleryImageCreateInput) (id : String) :
    (mkNewImage params id).id = id := rfl

/-- `addImage` below capacity: the image is stored and the gallery's
`totalImages` becomes the pre-insertion live count plus one. -/
theorem addImage_ok (s : GalleryStore) (img : GalleryImageRecord) (g : GalleryRecord)
    (hg : mapGet s.galleries img.galleryId = some g)
    (hcap : (s.getImagesByGalleryId img.galleryId none).length <
      GALLERY_DEFAULTS_MAX_IMAGES) :
    s.addImage img = .ok
      { s with
        images := mapSet s.images img.id img
        galleries := mapSet s.galleries g.id
          { g with totalImages :=
              (s.getImagesByGalleryId img.galleryId none).length + 1 } } := by
  unfold GalleryStore.addImage
  rw [hg]
  dsimp only
  rw [if_neg (by omega)]

/-- `addImage` at capacity: the capacity error, nothing stored. -/
theorem addImage_full (s : GalleryStore) (img : GalleryImageRecord) (g : GalleryRecord)
    (hg : mapGet s.galleries img.galleryId = some g)
    (hcap : GALLERY_DEFAULTS_MAX_IMAGES ≤
      (s.getImagesByGalleryId img.galleryId none).length) :
    s.addImage img = .error "Maximum images limit reached for this gallery" := by
  unfold GalleryStore.addImage
  rw [hg]
  dsimp only
  rw [if_pos hcap]

/-- The live image count of a gallery is the filtered-values count (sorting
does not change the length). -/
theorem getImages_length (s : GalleryStore) (gid : String) :
    (s.getImagesByGalleryId gid none).length =
      ((mapValues s.images).filter (fun img => img.galleryId == gid)).length := by
  unfold GalleryStore.getImagesByGalleryId
  exact sortCmp_length _ _

/-- C5: on a gallery holding exactly 49 live images a valid
`galleryImageCreate` succeeds and the live count becomes 50; on a gallery
already holding the maximum (50 or more) it fails with `MAX_IMAGES_REACHED`
and the store is unchanged. -/
theorem gallery_capacity_spec (s : GalleryStore) (params : GalleryImageCreateInput)
    (id : String) (g : GalleryRecord)
    (hg : s.getById params.galleryId = some g)
    (hfresh : mapGet s.images id = none) :
    ((s.getImagesByGalleryId params.galleryId none).length = 49 →
      (galleryImageCreate s params id).1 = .ok (mkNewImage params id) ∧
      ((galleryImageCreate s params id).2.getImagesByGalleryId params.galleryId
        none).length = 50) ∧
    (GALLERY_DEFAULTS_MAX_IMAGES ≤ (s.getImagesByGalleryId params.galleryId none).length →
      galleryImageCreate s params id =
        (.error (.serviceError "MAX_IMAGES_REACHED" 400), s)) := by
  have hg2 : mapGet s.galleries (mkNewImage params id).galleryId = some g := hg
  constructor
  · intro h49
    have hlt : (s.getImagesByGalleryId (mkNewImage params id).galleryId none).length <
        GALLERY_DEFAULTS_MAX_IMAGES := by
      rw [mkNewImage_galleryId, h49]
      decide
    have hadd := addImage_ok s (mkNewImage params id) g hg2 hlt
    unfold galleryImageCreate
    rw [hg]
    dsimp only
    rw [hadd]
    dsimp only
    constructor
    · rw [galleryImageFinish_fst]
    · rw [getImages_length, galleryImageFinish_images]
      show ((mapValues (mapSet s.images id (mkNewImage params id))).filter
        (fun img => img.galleryId == params.galleryId)).length = 50
      rw [mapValues_mapSet_fresh s.images id (mkNewImage params id) hfresh]
      rw [List.filter_append]
      have h49b : ((mapValues s.images).filter
          (fun img => img.galleryId == params.galleryId)).length = 49 := by
        rw [← getImages_length]
        exact h49
      rw [List.length_append, h49b]
      simp [mkNewImage_galleryId]
  · intro hcap
    have hcap2 : GALLERY_DEFAULTS_MAX_IMAGES ≤
        (s.getImagesByGalleryId (mkNewImage params id).galleryId none).length := by
      rw [mkNewImage_galleryId]
      exact hcap
    have hadd := addImage_full s (mkNewImage params id) g hg2 hcap2
    unfold galleryImageCreate
    rw [hg]
    dsimp only
    rw [hadd]
    dsimp only
    rw [if_pos (by decide)]

def wImages (n : Nat) : List (String × GalleryImageRecord) :=
  (List.range n).map (fun i =>
    ("i" ++ toString i, mkNewImage wImageInput ("i" ++ toString i)))

def wGalleryStore49 : GalleryStore :=
  { galleries := [("g1", { wGallery with totalImages := 49 })]
    images := wImages 49
    variations := [] }

def wGalleryStore50 : GalleryStore :=
  { galleries := [("g1", { wGallery with totalImages := 50 })]
    images := wImages 50
    variations := [] }

/-- C5 witness: the theorem applied to a gallery with 49 images (the 50th
create succeeds) and to one with 50 images (the 51st fails, store
unchanged). -/
theorem gallery_capacity_spec_witness :
    (galleryImageCreate wGalleryStore49 wImageInput "img1").1 =
      .ok (mkNewImage wImageInput "img1") ∧
    galleryImageCreate wGalleryStore50 wImageInput "img1" =
      (.error (.serviceError "MAX_IMAGES_REACHED" 400), wGalleryStore50) := by
  constructor
  · exact ((gallery_capacity_spec wGalleryStore49 wImageInput "img1"
      { wGallery with totalImages := 49 } (by decide) (by decide)).1 (by decide)).1
  · exact (gallery_capacity_spec wGalleryStore50 wImageInput "img1"
      { wGallery with totalImages := 50 } (by decide) (by decide)).2 (by decide)

/-! ## Claim C4 — `totalImages` always equals the live image count -/

/-- Number of stored images belonging to the gallery `gid`. -/
def countImages (s : GalleryStore) (gid : String) : Nat :=
  ((mapValues s.images).filter (fun img => img.galleryId == gid)).length

/-- The claimed invariant: every gallery's denormalized `totalImages` equals
its live image count. -/
def imagesCountInv (s : GalleryStore) : Prop :=
  ∀ e ∈ s.galleries, e.2.totalImages = countImages s e.2.id

/-- Structural well-formedness every reachable store enjoys: unique map keys,
keys agreeing with the records' `id` fields, and every image referencing an
existing gallery. -/
def storeWF (s : GalleryStore) : Prop :=
  (s.galleries.map Prod.fst).Nodup ∧
  (s.images.map Prod.fst).Nodup ∧
  (∀ e ∈ s.galleries, e.1 = e.2.id) ∧
  (∀ e ∈ s.images, e.1 = e.2.id) ∧
  (∀ e ∈ s.images, e.2.galleryId ∈ s.galleries.map Prod.fst)

/-- Stores reachable from the empty store through the gallery service
operations, identifiers being freshly generated (spec §5 treats the random
identifier space as collision-free). -/
inductive GalleryReachable : GalleryStore → Prop where
  | init : GalleryReachable { galleries := [], images := [], variations := [] }
  | get (s : GalleryStore) (productId : String) (variationId : Option String)
      (freshId : String) (hs : GalleryReachable s)
      (hfresh : mapGet s.galleries freshId = none) :
      GalleryReachable (galleryGet s productId variationId freshId).2
  | createImage (s : GalleryStore) (input : GalleryImageCreateInput)
      (freshId : String) (hs : GalleryReachable s)
      (hfresh : mapGet s.images freshId = none) :
      GalleryReachable (galleryImageCreate s input freshId).2
  | updateImage (s : GalleryStore) (id : String) (body : GalleryImageUpdateInput)
      (hs : GalleryReachable s) :
      GalleryReachable (galleryImageUpdate s id body).2
  | deleteImage (s : GalleryStore) (id : String) (hs : GalleryReachable s) :
      GalleryReachable (galleryImageDelete s id).2

theorem countImages_eq_live (s : GalleryStore) (gid : String) :
    countImages s gid = (s.getImagesByGalleryId gid none).length :=
  (getImages_length s gid).symm

/-- `galleryGet` preserves well-formedness and the count invariant (lazy
creation adds an empty gallery under a fresh id, which no image can
reference). -/
theorem wf_inv_get (s : GalleryStore) (productId : String)
    (variationId : Option String) (freshId : String)
    (hwf : storeWF s) (hinv : imagesCountInv s)
    (hfresh : mapGet s.galleries freshId = none) :
    storeWF (galleryGet s productId variationId freshId).2 ∧
    imagesCountInv (galleryGet s productId variationId freshId).2 := by
  obtain ⟨hnodupG, hnodupI, hkeyG, hkeyI, hrefs⟩ := hwf
  unfold galleryGet
  cases hgp : s.getByProductId productId with
  | some g => exact ⟨⟨hnodupG, hnodupI, hkeyG, hkeyI, hrefs⟩, hinv⟩
  | none =>
    dsimp only [GalleryStore.addGallery]
    have hset : mapSet s.galleries freshId
        { id := freshId, productId := productId, mainImageUrl := "",
          totalImages := 0, currentImageIndex := 1,
          currentVariationId := variationId, displayMode := .page } =
        s.galleries ++ [(freshId,
          { id := freshId, productId := productId, mainImageUrl := "",
            totalImages := 0, currentImageIndex := 1,
            currentVariationId := variationId, displayMode := .page })] :=
      mapSet_fresh _ _ _ hfresh
    rw [hset]
    have hnotin : freshId ∉ s.galleries.map Prod.fst :=
      (mapGet_eq_none_iff s.galleries freshId).mp hfresh
    refine ⟨⟨?_, hnodupI, ?_, hkeyI, ?_⟩, ?_⟩
    · rw [List.map_append]
      rw [List.nodup_append]
      refine ⟨hnodupG, List.nodup_singleton freshId, ?_⟩
      intro a ha hb
      simp only [List.map_cons, List.map_nil, List.mem_singleton] at hb
      rw [hb] at ha
      exact hnotin ha
    · intro e he
      rcases List.mem_append.mp he with h | h
      · exact hkeyG e h
      · simp only [List.mem_singleton] at h
        rw [h]
    · intro e he
      rw [List.map_append]
      exact List.mem_append_left _ (hrefs e he)
    · intro e he
      rcases List.mem_append.mp he with h | h
      · exact hinv e h
      · simp only [List.mem_singleton] at h
        rw [h]
        show (0 : Nat) = countImages s freshId
        unfold countImages
        symm
        rw [List.length_eq_zero, List.filter_eq_nil]
        intro img hmem
        rw [mapValues] at hmem
        obtain ⟨e2, he2, hsnd⟩ := List.mem_map.mp hmem
        have hin := hrefs e2 he2
        rw [hsnd] at hin
        simp only [beq_iff_eq]
        intro hcontr
        rw [hcontr] at hin
        exact hnotin hin

/-- A successful `addImage` with a fresh image id preserves well-formedness
and the count invariant: the stored `totalImages` is the old live count plus
one, which is exactly the new live count. -/
theorem wf_inv_addImage (s : GalleryStore) (img : GalleryImageRecord)
    (s2 : GalleryStore) (hwf : storeWF s) (hinv : imagesCountInv s)
    (hfresh : mapGet s.images img.id = none)
    (hadd : s.addImage img = .ok s2) :
    storeWF s2 ∧ imagesCountInv s2 := by
  obtain ⟨hnodupG, hnodupI, hkeyG, hkeyI, hrefs⟩ := hwf
  unfold GalleryStore.addImage at hadd
  cases hgal : mapGet s.galleries img.galleryId with
  | none =>
    simp only [hgal] at hadd
    exact absurd hadd (by simp)
  | some gallery =>
    simp only [hgal] at hadd
    by_cases hcap : GALLERY_DEFAULTS_MAX_IMAGES ≤
        (s.getImagesByGalleryId img.galleryId none).length
    · rw [if_pos hcap] at hadd
      exact absurd hadd (by simp)
    · rw [if_neg hcap] at hadd
      have hrec := Except.ok.inj hadd
      have h2img : s2.images = mapSet s.images img.id img := by
        rw [← hrec]
      have h2gal : s2.galleries = mapSet s.galleries gallery.id
          { gallery with totalImages :=
              (s.getImagesByGalleryId img.galleryId none).length + 1 } := by
        rw [← hrec]
      have hgalmem : (img.galleryId, gallery) ∈ s.galleries := mapGet_mem _ _ _ hgal
      have hgid : img.galleryId = gallery.id := hkeyG _ hgalmem
      have hvals : mapValues (mapSet s.images img.id img) =
          mapValues s.images ++ [img] := mapValues_mapSet_fresh _ _ _ hfresh
      have hcnts2 : ∀ gid, countImages s2 gid =
          ((mapValues (mapSet s.images img.id img)).filter
            (fun i2 => i2.galleryId == gid)).length := by
        intro gid
        unfold countImages
        rw [h2img]
      have hc1 : ∀ gid, ((mapValues (mapSet s.images img.id img)).filter
          (fun i2 => i2.galleryId == gid)).length =
          if img.galleryId = gid then countImages s gid + 1 else countImages s gid := by
        intro gid
        rw [hvals, List.filter_append]
        by_cases hgi : img.galleryId = gid
        · rw [if_pos hgi]
          have hone : List.filter (fun i2 => i2.galleryId == gid) [img] = [img] := by
            simp [hgi]
          rw [hone, List.length_append]
          rfl
        · rw [if_neg hgi]
          have hnone : List.filter (fun i2 => i2.galleryId == gid) [img] = [] := by
            simp only [List.filter_cons, List.filter_nil,
              beq_eq_false_iff_ne.mpr hgi, Bool.false_eq_true, if_false, reduceIte]
          rw [hnone, List.append_nil]
          rfl
      refine ⟨⟨?_, ?_, ?_, ?_, ?_⟩, ?_⟩
      · rw [h2gal]
        exact nodup_keys_mapSet _ _ _ hnodupG
      · rw [h2img]
        exact nodup_keys_mapSet _ _ _ hnodupI
      · intro e he
        rw [h2gal] at he
        rcases mem_mapSet_of_nodup _ _ _ hnodupG e he with h | ⟨h, _⟩
        · rw [h]
        · exact hkeyG e h
      · intro e he
        rw [h2img] at he
        rcases mem_mapSet_of_nodup _ _ _ hnodupI e he with h | ⟨h, _⟩
        · rw [h]
        · exact hkeyI e h
      · intro e he
        rw [h2img] at he
        rw [h2gal]
        rcases mem_mapSet_of_nodup _ _ _ hnodupI e he with h | ⟨h, _⟩
        · rw [h]
          exact keys_subset_mapSet _ _ _ _ (List.mem_map_of_mem Prod.fst hgalmem)
        · exact keys_subset_mapSet _ _ _ _ (hrefs e h)
      · intro e he
        rw [h2gal] at he
        rw [hcnts2, hc1]
        rcases mem_mapSet_of_nodup _ _ _ hnodupG e he with h | ⟨h, hne⟩
        · rw [h]
          dsimp only
          rw [if_pos hgid]
          rw [countImages_eq_live, ← hgid]
        · have he2id : e.1 = e.2.id := hkeyG e h
          rw [if_neg ?hneq]
          · exact hinv e h
          · intro hc
            apply hne
            rw [hgid] at hc
            rw [he2id, ← hc]

/-- The tail of `galleryImageCreate` (the dead main-image branch included)
preserves well-formedness and the count invariant: the only write it can do
replaces a gallery's `mainImageUrl`, leaving `id` and `totalImages` alone. -/
theorem wf_inv_finish (s2 : GalleryStore) (params : GalleryImageCreateInput)
    (img : GalleryImageRecord) (hwf : storeWF s2) (hinv : imagesCountInv s2) :
    storeWF (galleryImageFinish s2 params img).2 ∧
    imagesCountInv (galleryImageFinish s2 params img).2 := by
  obtain ⟨hnodupG, hnodupI, hkeyG, hkeyI, hrefs⟩ := hwf
  unfold galleryImageFinish
  cases hga : s2.getById params.galleryId with
  | none => exact ⟨⟨hnodupG, hnodupI, hkeyG, hkeyI, hrefs⟩, hinv⟩
  | some galleryAfter =>
    dsimp only
    by_cases hz : (galleryAfter.totalImages == 0) = true
    · rw [if_pos hz]
      dsimp only
      unfold GalleryStore.updateGallery
      cases hgg : mapGet s2.galleries galleryAfter.id with
      | none => exact ⟨⟨hnodupG, hnodupI, hkeyG, hkeyI, hrefs⟩, hinv⟩
      | some existing =>
        dsimp only
        have hmem : (galleryAfter.id, existing) ∈ s2.galleries := mapGet_mem _ _ _ hgg
        have hkey : galleryAfter.id = existing.id := hkeyG _ hmem
        refine ⟨⟨?_, hnodupI, ?_, hkeyI, ?_⟩, ?_⟩
        · exact nodup_keys_mapSet _ _ _ hnodupG
        · intro e he
          rcases mem_mapSet_of_nodup _ _ _ hnodupG e he with h | ⟨h, _⟩
          · rw [h]
            exact hkey
          · exact hkeyG e h
        · intro e he
          exact keys_subset_mapSet _ _ _ _ (hrefs e he)
        · intro e he
          rcases mem_mapSet_of_nodup _ _ _ hnodupG e he with h | ⟨h, _⟩
          · rw [h]
            exact hinv (galleryAfter.id, existing) hmem
          · exact hinv e h
    · rw [if_neg hz]
      exact ⟨⟨hnodupG, hnodupI, hkeyG, hkeyI, hrefs⟩, hinv⟩

/-- `galleryImageCreate` preserves well-formedness and the count invariant. -/
theorem wf_inv_createImage (s : GalleryStore) (input : GalleryImageCreateInput)
    (freshId : String) (hwf : storeWF s) (hinv : imagesCountInv s)
    (hfresh : mapGet s.images freshId = none) :
    storeWF (galleryImageCreate s input freshId).2 ∧
    imagesCountInv (galleryImageCreate s input freshId).2 := by
  unfold galleryImageCreate
  cases hg : s.getById input.galleryId with
  | none => exact ⟨hwf, hinv⟩
  | some g =>
    dsimp only
    cases hadd : s.addImage (mkNewImage input freshId) with
    | error msg =>
      dsimp only
      by_cases hinc : strIncludes msg "Maximum images limit" = true
      · rw [if_pos hinc]
        exact ⟨hwf, hinv⟩
      · rw [if_neg hinc]
        exact ⟨hwf, hinv⟩
    | ok s2 =>
      dsimp only
      have h2 := wf_inv_addImage s (mkNewImage input freshId) s2 hwf hinv hfresh hadd
      exact wf_inv_finish s2 input (mkNewImage input freshId) h2.1 h2.2

theorem applyImageUpdate_id (e : GalleryImageRecord) (b : GalleryImageUpdateInput) :
    (applyImageUpdate e b).id = e.id := rfl

theorem applyImageUpdate_galleryId (e : GalleryImageRecord) (b : GalleryImageUpdateInput) :
    (applyImageUpdate e b).galleryId = e.galleryId := rfl

/-- `galleryImageUpdate` preserves well-formedness and the count invariant:
the update schema cannot change `id` or `galleryId`, so every per-gallery
count is untouched. -/
theorem wf_inv_updateImage (s : GalleryStore) (id : String)
    (body : GalleryImageUpdateInput) (hwf : storeWF s) (hinv : imagesCountInv s) :
    storeWF (galleryImageUpdate s id body).2 ∧
    imagesCountInv (galleryImageUpdate s id body).2 := by
  obtain ⟨hnodupG, hnodupI, hkeyG, hkeyI, hrefs⟩ := hwf
  unfold galleryImageUpdate
  cases hgi : s.getImageById id with
  | none => exact ⟨⟨hnodupG, hnodupI, hkeyG, hkeyI, hrefs⟩, hinv⟩
  | some existing0 =>
    dsimp only
    unfold GalleryStore.updateImage
    have hm : mapGet s.images id = some existing0 := hgi
    rw [hm]
    dsimp only
    have hent : (id, existing0) ∈ s.images := mapGet_mem _ _ _ hm
    have hkey : id = existing0.id := hkeyI _ hent
    refine ⟨⟨hnodupG, ?_, hkeyG, ?_, ?_⟩, ?_⟩
    · exact nodup_keys_mapSet _ _ _ hnodupI
    · intro e he
      rcases mem_mapSet_of_nodup _ _ _ hnodupI e he with h | ⟨h, _⟩
      · rw [h]
        dsimp only
        rw [applyImageUpdate_id]
        exact hkey
      · exact hkeyI e h
    · intro e he
      rcases mem_mapSet_of_nodup _ _ _ hnodupI e he with h | ⟨h, _⟩
      · rw [h]
        dsimp only
        rw [applyImageUpdate_galleryId]
        exact hrefs _ hent
      · exact hrefs e h
    · intro e he
      show e.2.totalImages =
        ((mapValues (mapSet s.images id (applyImageUpdate existing0 body))).filter
          (fun i2 => i2.galleryId == e.2.id)).length
      rw [filterLen_mapSet_replace s.images id (applyImageUpdate existing0 body)
        existing0 _ hm (by rw [applyImageUpdate_galleryId])]
      exact hinv e he

/-- `galleryImageDelete` preserves well-formedness and the count invariant:
the owning gallery's count is recomputed from the live images and no other
gallery's count changes. -/
theorem wf_inv_deleteImage (s : GalleryStore) (id : String)
    (hwf : storeWF s) (hinv : imagesCountInv s) :
    storeWF (galleryImageDelete s id).2 ∧
    imagesCountInv (galleryImageDelete s id).2 := by
  obtain ⟨hnodupG, hnodupI, hkeyG, hkeyI, hrefs⟩ := hwf
  unfold galleryImageDelete
  cases hgi : s.getImageById id with
  | none => exact ⟨⟨hnodupG, hnodupI, hkeyG, hkeyI, hrefs⟩, hinv⟩
  | some image =>
    dsimp only
    unfold GalleryStore.deleteImage
    have hm : mapGet s.images id = some image := hgi
    rw [hm]
    dsimp only
    have hentI : (id, image) ∈ s.images := mapGet_mem _ _ _ hm
    cases hgg : mapGet s.galleries image.galleryId with
    | none =>
      have hin := hrefs (id, image) hentI
      exact absurd hin ((mapGet_eq_none_iff _ _).mp hgg)
    | some gallery =>
      dsimp only
      have hentG : (image.galleryId, gallery) ∈ s.galleries := mapGet_mem _ _ _ hgg
      have hgid : image.galleryId = gallery.id := hkeyG _ hentG
      refine ⟨⟨?_, ?_, ?_, ?_, ?_⟩, ?_⟩
      · exact nodup_keys_mapSet _ _ _ hnodupG
      · exact nodup_keys_mapDelete _ _ hnodupI
      · intro e he
        rcases mem_mapSet_of_nodup _ _ _ hnodupG e he with h | ⟨h, _⟩
        · rw [h]
        · exact hkeyG e h
      · intro e he
        exact hkeyI e (mem_mapDelete _ _ _ he).1
      · intro e he
        exact keys_subset_mapSet _ _ _ _ (hrefs e (mem_mapDelete _ _ _ he).1)
      · intro e he
        rcases mem_mapSet_of_nodup _ _ _ hnodupG e he with h | ⟨h, hne⟩
        · rw [h]
          dsimp only
          rw [getImages_length, hgid]
          rfl
        · have he2id : e.1 = e.2.id := hkeyG e h
          have hnp : (fun i2 : GalleryImageRecord => i2.galleryId == e.2.id) image
              = false := by
            simp only [beq_eq_false_iff_ne, ne_eq]
            rw [hgid]
            intro hc
            exact hne (by rw [he2id, ← hc])
          show e.2.totalImages =
            ((mapValues (mapDelete s.images id)).filter
              (fun i2 => i2.galleryId == e.2.id)).length
          rw [filterLen_mapDelete s.images id image _ hnodupI hm hnp]
          exact hinv e h

/-- Reachable stores are well-formed and satisfy the count invariant. -/
theorem reachable_wf_inv (s : GalleryStore) (h : GalleryReachable s) :
    storeWF s ∧ imagesCountInv s := by
  induction h with
  | init =>
    refine ⟨⟨List.nodup_nil, List.nodup_nil, ?_, ?_, ?_⟩, ?_⟩ <;>
      intro e he <;> simp at he
  | get s productId variationId freshId hs hfresh ih =>
    exact wf_inv_get s productId variationId freshId ih.1 ih.2 hfresh
  | createImage s input freshId hs hfresh ih =>
    exact wf_inv_createImage s input freshId ih.1 ih.2 hfresh
  | updateImage s id body hs ih =>
    exact wf_inv_updateImage s id body ih.1 ih.2
  | deleteImage s id hs ih =>
    exact wf_inv_deleteImage s id ih.1 ih.2

/-- C4: in every store reachable through the gallery operations (lazy
creation in `galleryGet`, `galleryImageCreate`, `galleryImageUpdate`,
`galleryImageDelete`, with freshly generated identifiers), every gallery's
`totalImages` equals the number of stored images whose `galleryId` is that
gallery's id. -/
theorem gallery_totalImages_invariant (s : GalleryStore) (h : GalleryReachable s) :
    ∀ e ∈ s.galleries, e.2.totalImages = countImages s e.2.id :=
  (reachable_wf_inv s h).2

def wReachedStore : GalleryStore :=
  (galleryGet { galleries := [], images := [], variations := [] } "prod1" none "g1").2

def wCreatedGallery : GalleryRecord :=
  { id := "g1"
    productId := "prod1"
    mainImageUrl := ""
    totalImages := 0
    currentImageIndex := 1
    currentVariationId := none
    displayMode := .page }

/-- C4 witness: the invariant at the store reached by one lazy gallery
creation from the empty store. -/
theorem gallery_totalImages_invariant_witness :
    wCreatedGallery.totalImages = countImages wReachedStore "g1" := by
  have h := gallery_totalImages_invariant wReachedStore
    (GalleryReachable.get { galleries := [], images := [], variations := [] }
      "prod1" none "g1" GalleryReachable.init rfl)
  exact h ("g1", wCreatedGallery) (by decide)
